import Mathlib

/-!
Shallow embedding of the E4 streaming adapter
(`src/recording_data/streamers/outdated/E4Streamer.py`).

Strings are modelled as `List Char`.  Python numeric conversions are
modelled over `ℚ` (for `float` on the protocol's decimal notation) and
`ℤ` (for `int`).  Exceptions are modelled explicitly: a computation
that can raise returns an error marker, and the `try/except` blocks of
the source become matches on that marker.
-/

namespace E4

/-- Whitespace for Python `str.split()` (no separator argument):
splits on runs of whitespace and discards empty fields. -/
def isWs (c : Char) : Bool :=
  c = ' ' || c = '\t' || c = '\r' || c = '\n'

/-- Worker for `pySplit`: `acc` holds the (reversed) characters of the
token currently being read. -/
def splitWsAcc : List Char → List Char → List (List Char)
  | [], acc => if acc.isEmpty then [] else [acc.reverse]
  | c :: cs, acc =>
    if isWs c then
      if acc.isEmpty then splitWsAcc cs [] else acc.reverse :: splitWsAcc cs []
    else splitWsAcc cs (c :: acc)

/-- Python `s.split()` — whitespace-separated tokens, empties discarded. -/
def pySplit (s : List Char) : List (List Char) :=
  splitWsAcc s []

/-- Python `s.split("\n")`: fields between newline separators, keeping
empty fields (so a chunk ending in a newline yields a trailing empty
field, and a chunk with no newline yields one field). -/
def splitOnNl : List Char → List (List Char)
  | [] => [[]]
  | c :: cs =>
    if c = '\n' then [] :: splitOnNl cs
    else
      match splitOnNl cs with
      | [] => [[c]]
      | s :: rest => (c :: s) :: rest

/-- One character of Python `s.replace(',', '.')`. -/
def charToDot (c : Char) : Char :=
  if c = ',' then '.' else c

/-- Python `s.replace(',', '.')` — the decimal-separator normalization
applied by `_read_data` to every numeric token. -/
def commaToDot (s : List Char) : List Char :=
  s.map charToDot

def isDigit (c : Char) : Bool :=
  '0' ≤ c && c ≤ '9'

def digitVal (c : Char) : Nat :=
  c.toNat - ('0').toNat

def digitsToNat (ds : List Char) : Nat :=
  ds.foldl (fun n c => 10 * n + digitVal c) 0

/-- Strip an optional leading sign; `true` means negative. -/
def stripSign : List Char → Bool × List Char
  | '-' :: cs => (true, cs)
  | '+' :: cs => (false, cs)
  | cs => (false, cs)

def applySignQ (neg : Bool) (q : ℚ) : ℚ :=
  if neg then -q else q

def applySignZ (neg : Bool) (z : ℤ) : ℤ :=
  if neg then -z else z

/-- Python `float(s)` on the protocol's plain decimal notation
(`[sign] digits [. digits]`, at least one digit): `none` models a
raised `ValueError`.  Values are exact rationals — a string
`ip.fp` denotes (digits of `ip` followed by `fp`) over `10 ^ |fp|`. -/
def pyFloat (s : List Char) : Option ℚ :=
  let sgn := stripSign s
  let ip := sgn.2.takeWhile isDigit
  let rest := sgn.2.dropWhile isDigit
  match rest with
  | [] => if ip.isEmpty then none else some (applySignQ sgn.1 (mkRat (digitsToNat ip) 1))
  | '.' :: fr =>
    let fp := fr.takeWhile isDigit
    if !(fr.dropWhile isDigit).isEmpty then none
    else if ip.isEmpty && fp.isEmpty then none
    else some (applySignQ sgn.1 (mkRat (digitsToNat (ip ++ fp)) ((10 : ℕ) ^ fp.length)))
  | _ => none

/-- Python `int(s)`: optional sign followed by at least one digit;
`none` models a raised `ValueError` (e.g. `int("1.5")` fails). -/
def pyInt (s : List Char) : Option ℤ :=
  let sgn := stripSign s
  if sgn.2.isEmpty || !(sgn.2.all isDigit) then none
  else some (applySignZ sgn.1 (digitsToNat sgn.2))

/-- The four modality tags of the wire protocol. -/
def accTag : List Char := ("E4_Acc").data

def bvpTag : List Char := ("E4_Bvp").data

def gsrTag : List Char := ("E4_Gsr").data

def tmpTag : List Char := ("E4_Temperature").data

/-- The per-line data value: a 3-vector of ints for `E4_Acc`
(the Python list `[int(..), int(..), int(..)]`), a single float
otherwise. -/
inductive PyVal where
  | iv : ℤ → ℤ → ℤ → PyVal
  | fv : ℚ → PyVal
deriving DecidableEq

/-- The four global LSL outlets created in `_connect`. -/
inductive Outlet where
  | acc
  | bvp
  | gsr
  | tmp
deriving DecidableEq

/-- One `push_sample` call on an LSL outlet. -/
structure Push where
  outlet : Outlet
  val : PyVal
  time : ℚ
deriving DecidableEq

/-- Outcome of the body of `_read_data` on one element of `samples`:
`err` models a raised exception (IndexError / ValueError), `skip` a
line whose tag matches none of the four `if` branches, `sample` a line
that was parsed and pushed to its outlet. -/
inductive LineOut where
  | err
  | skip
  | sample (outlet : Outlet) (tag : List Char) (time : ℚ) (val : PyVal)
deriving DecidableEq

/-- Token access and conversion
`float(samples[i].split()[k].replace(',', '.'))`:
`none` models IndexError (missing token) or ValueError. -/
def numF (ts : List (List Char)) (k : Nat) : Option ℚ :=
  (ts.get? k).bind fun t => pyFloat (commaToDot t)

/-- Token access and conversion
`int(samples[i].split()[k].replace(',', '.'))`. -/
def numI (ts : List (List Char)) (k : Nat) : Option ℤ :=
  (ts.get? k).bind fun t => pyInt (commaToDot t)

/-- The `E4_Acc` branch of `_read_data`: timestamp from token 1,
three integer values from tokens 2..4, then `outletACC.push_sample`. -/
def parseAcc (ts : List (List Char)) : LineOut :=
  match numF ts 1, numI ts 2, numI ts 3, numI ts 4 with
  | some t, some a, some b, some c => .sample .acc accTag t (.iv a b c)
  | _, _, _, _ => .err

/-- The `E4_Bvp`/`E4_Gsr`/`E4_Temperature` branches: timestamp from
token 1, one float value from token 2, then a push on the given
outlet. -/
def parseF1 (o : Outlet) (tg : List Char) (ts : List (List Char)) : LineOut :=
  match numF ts 1, numF ts 2 with
  | some t, some v => .sample o tg t (.fv v)
  | _, _ => .err

/-- Processing of one element of `samples` inside `_read_data`'s loop:
`samples[i].split()[0]` raises IndexError on an empty/whitespace line;
otherwise the tag is compared against the four literals (the four
source `if`s are mutually exclusive string equalities, so the chain is
equivalent); an unmatched tag falls through with no effect. -/
def processLine (line : List Char) : LineOut :=
  match pySplit line with
  | [] => .err
  | t0 :: rest =>
    if t0 = accTag then parseAcc (t0 :: rest)
    else if t0 = bvpTag then parseF1 .bvp bvpTag (t0 :: rest)
    else if t0 = gsrTag then parseF1 .gsr gsrTag (t0 :: rest)
    else if t0 = tmpTag then parseF1 .tmp tmpTag (t0 :: rest)
    else .skip

/-- Result of the `try` body of `_read_data` over a list of lines:
the LSL pushes that happened, and `some (streamer_list, time_s_list,
data_list)` on success or `none` if a line raised (the exception
aborts the loop; pushes made before it persist). -/
structure BatchOut where
  pushes : List Push
  result : Option (List (List Char) × List ℚ × List PyVal)
deriving DecidableEq

/-- The `for i in range(len(samples) - 1)` loop of `_read_data` over
the given list of lines. -/
def processBatch : List (List Char) → BatchOut
  | [] => ⟨[], some ([], [], [])⟩
  | l :: ls =>
    match processLine l with
    | .err => ⟨[], none⟩
    | .skip => processBatch ls
    | .sample o tg t v =>
      match processBatch ls with
      | ⟨ps, some (tgs, ts, vs)⟩ =>
          ⟨⟨o, v, t⟩ :: ps, some (tg :: tgs, t :: ts, v :: vs)⟩
      | ⟨ps, none⟩ => ⟨⟨o, v, t⟩ :: ps, none⟩

/-- The frame-buffer stage of `_read_data` on one chunk:
`samples = response.split("\n")` followed by iterating over
`range(len(samples) - 1)`, i.e. every field except the last — the
trailing field (empty when the chunk ends in a newline, otherwise a
partial line) is not processed, and no state is carried to the next
chunk (`self._buffer` is never used by `_read_data`). -/
def extractLines (chunk : List Char) : List (List Char) :=
  (splitOnNl chunk).dropLast

/-- What one call of `self._socket.recvfrom` produced: a decoded
chunk, a `socket.timeout`, or a fatal error such as a connection
reset. -/
inductive RecvEvent where
  | chunk : List Char → RecvEvent
  | timeout
  | connReset
deriving DecidableEq

/-- Observable result of one `_read_data` call: the pushes made, the
returned triple (`none` models `return (None, None, None)`), and the
effects of the `except` handler (`self._log_error` and
`time.sleep(1)`). -/
structure ReadResult where
  pushes : List Push
  result : Option (List (List Char) × List ℚ × List PyVal)
  errorLogged : Bool
  sleptOneSec : Bool
deriving DecidableEq

/-- Model of `_read_data`: the whole `try` body — `recvfrom`, decode, split on
newlines, per-line loop — under the bare `except` which catches every
exception (socket timeouts and resets included), logs an error,
sleeps one second and returns `(None, None, None)`. -/
def read_data : RecvEvent → ReadResult
  | .chunk c =>
    match processBatch (extractLines c) with
    | ⟨ps, some r⟩ => ⟨ps, some r, false, false⟩
    | ⟨ps, none⟩ => ⟨ps, none, true, true⟩
  | .timeout => ⟨[], none, true, true⟩
  | .connReset => ⟨[], none, true, true⟩

/-- Device/stream names registered by the `add_stream` calls of
`__init__` and targeted by `append_data` in `_run`. -/
def accDev : List Char := ("ACC-empatica_e4").data

def accStream : List Char := ("acc-values").data

def bvpDev : List Char := ("BVP-empatica_e4").data

def bvpStream : List Char := ("bvp-values").data

def gsrDev : List Char := ("GSR-empatica_e4").data

def gsrStream : List Char := ("gsr-values").data

def tmpDev : List Char := ("Tmp-empatica_e4").data

def tmpStream : List Char := ("tmp-values").data

/-- One `self.append_data(device_name, stream_name, time_s, data)`
call made by `_run`. -/
structure Append where
  device : List Char
  stream : List Char
  time : ℚ
  val : PyVal
deriving DecidableEq

/-- The four `if stream_type[i] == ...` tests of `_run` for one
sample (the tests are mutually exclusive string equalities). -/
def dispatchOne (tg : List Char) (t : ℚ) (v : PyVal) : List Append :=
  (if tg = accTag then [⟨accDev, accStream, t, v⟩] else []) ++
  (if tg = bvpTag then [⟨bvpDev, bvpStream, t, v⟩] else []) ++
  (if tg = gsrTag then [⟨gsrDev, gsrStream, t, v⟩] else []) ++
  (if tg = tmpTag then [⟨tmpDev, tmpStream, t, v⟩] else [])

/-- The `for i in range(len(stream_type))` loop of `_run` (the three
lists returned by `_read_data` always have equal length). -/
def dispatchBatch : List (List Char) → List ℚ → List PyVal → List Append
  | tg :: tgs, t :: ts, v :: vs => dispatchOne tg t v ++ dispatchBatch tgs ts vs
  | _, _, _ => []

/-- Observable outcome of `_run`: all `append_data` calls, all LSL
pushes, how many times the `finally` block closed the socket, and how
many loop iterations executed. -/
structure RunResult where
  appends : List Append
  pushes : List Push
  closeCount : Nat
  itersRun : Nat
deriving DecidableEq

/-- The `while self._running` loop of `_run`, driven by the list of
socket events (one per iteration; the list ends when the running flag
is cleared or the loop is interrupted).  Each iteration calls
`_read_data` and, when `time_s is not None`, dispatches the batch;
`_read_data` never raises (its bare `except` swallows everything), so
the loop body cannot fail, and the `finally` block closes the socket
exactly once when the loop ends. -/
def run : List RecvEvent → RunResult
  | [] => ⟨[], [], 1, 0⟩
  | ev :: evs =>
    match read_data ev, run evs with
    | r, rest =>
      ⟨(match r.result with
         | some (tgs, ts, vs) => dispatchBatch tgs ts vs
         | none => []) ++ rest.appends,
       r.pushes ++ rest.pushes, rest.closeCount, rest.itersRun + 1⟩

/-- Socket lifecycle value of `self._socket`:
fresh from `socket.socket(...)`, connected, or closed. -/
inductive SockState where
  | created
  | connected
  | closed
deriving DecidableEq

/-- Adapter state relevant to shutdown: `self._socket` (which is
`None` after `__init__`) and the running flag. -/
structure AdapterState where
  sock : Option SockState
  running : Bool
deriving DecidableEq

/-- State after `__init__`: `self._socket = None`. -/
def initState : AdapterState :=
  ⟨none, false⟩

/-- Modelled from the spec: `stop()` is implemented in the
`SensorStreamer` base class, which is not under `src/`; per the spec
it "clears running flag" and raises nothing. -/
def stop (st : AdapterState) : AdapterState :=
  ⟨st.sock, false⟩

/-- Model of `quit()`: `self._socket.close()` — an `AttributeError` is raised
(modelled as `.error ()`) when `self._socket` is still `None`;
otherwise the socket ends closed. -/
def quit (st : AdapterState) : Except Unit AdapterState :=
  match st.sock with
  | none => .error ()
  | some _ => .ok ⟨some .closed, st.running⟩

/-- Commands of the fixed handshake in `_connect` (all four modality
flags are `True` in `__init__`). -/
def deviceListCmd : List Char := ("device_list\r\n").data

def deviceConnectCmd : List Char :=
  ("device_connect ").data ++ ("D931CD").data ++ ("\r\n").data

def pauseOnCmd : List Char := ("pause ON\r\n").data

def subCmd (m : List Char) : List Char :=
  ("device_subscribe ").data ++ m ++ (" ON\r\n").data

def pauseOffCmd : List Char := ("pause OFF\r\n").data

/-- Observable outcome of `_connect`: the commands sent over the
socket, the LSL outlets created, the final socket state, whether an
exception propagated out, and whether `return True` was reached. -/
structure ConnectOutcome where
  sentCommands : List (List Char)
  outletsCreated : List Outlet
  sock : Option SockState
  raised : Bool
  returnedTrue : Bool
deriving DecidableEq

/-- Model of `_connect`, driven by whether the TCP `self._socket.connect(...)`
call succeeds.  The socket object is created and its timeout set
first; on a connect failure (timeout, refused) the exception
propagates immediately — before any `send`, so no handshake command is
attempted and no outlet is created.  On success the full fixed
handshake runs and the four outlets are created. -/
def connectBody (tcpOK : Bool) : ConnectOutcome :=
  if tcpOK then
    ⟨[deviceListCmd, deviceConnectCmd, pauseOnCmd,
      subCmd (("acc").data), subCmd (("bvp").data),
      subCmd (("gsr").data), subCmd (("tmp").data),
      pauseOffCmd],
     [.acc, .bvp, .gsr, .tmp], some .connected, false, true⟩
  else
    ⟨[], [], some .created, true, false⟩

/-- Modelled from the spec: the `connect()` lifecycle wrapper lives in
the `SensorStreamer` base class, which is not under `src/`.  Per the
spec, "`connect() -> bool`" and "**Connect failure**: reported to the
caller as a boolean/failure result from `connect()`" — so the wrapper
catches the error raised by `_connect` and reports `false`. -/
def connectResult (tcpOK : Bool) : Bool × ConnectOutcome :=
  ((if (connectBody tcpOK).raised then false else (connectBody tcpOK).returnedTrue),
   connectBody tcpOK)

/-- Concatenation of whole newline-terminated lines: the wire form of
a chunk whose boundary falls exactly on a line boundary. -/
def mkChunk : List (List Char) → List Char
  | [] => []
  | l :: ls => l ++ '\n' :: mkChunk ls

/-- The frame-buffer stage mapped over a whole stream of chunks. -/
def extractAll : List (List Char) → List (List Char)
  | [] => []
  | c :: cs => extractLines c ++ extractAll cs

/-- One character of the inverse rewriting: a line "written with a
comma fractional separator" is the dot-written line with every dot
replaced by a comma. -/
def charToComma (c : Char) : Char :=
  if c = '.' then ',' else c

/-- A line written with comma fractional separators, from the same
line written with dot separators. -/
def toComma (s : List Char) : List Char :=
  s.map charToComma

/-- Comparison definition following the spec's words for the Channel
Demultiplexer: the fixed four-entry registration table mapping a
modality tag to the one channel sink registered for it
(`E4_Acc` → the acceleration channel, `E4_Bvp` → BVP, `E4_Gsr` → GSR,
`E4_Temperature` → temperature); `none` for a tag with no registered
sink. -/
def specSinkOf (tg : List Char) : Option (List Char × List Char) :=
  if tg = accTag then some (accDev, accStream)
  else if tg = bvpTag then some (bvpDev, bvpStream)
  else if tg = gsrTag then some (gsrDev, gsrStream)
  else if tg = tmpTag then some (tmpDev, tmpStream)
  else none

/-- Comparison definition following the spec's words for `dispatch`:
each sample is forwarded to exactly the sink `specSinkOf` registers
for its modality, and to no other sink. -/
def specDispatch : List (List Char) → List ℚ → List PyVal → List Append
  | tg :: tgs, t :: ts, v :: vs =>
    (match specSinkOf tg with
     | some ds => [⟨ds.1, ds.2, t, v⟩]
     | none => []) ++ specDispatch tgs ts vs
  | _, _, _ => []

lemma splitOnNl_noNl (s : List Char) (h : '\n' ∉ s) : splitOnNl s = [s] := by
  induction s with
  | nil => rfl
  | cons c cs ih =>
    have hc : ¬(c = '\n') := fun hceq => h (hceq ▸ List.mem_cons_self c cs)
    have hcs : '\n' ∉ cs := fun hm => h (List.mem_cons_of_mem _ hm)
    simp [splitOnNl, hc, ih hcs]

lemma splitOnNl_append (l r : List Char) (h : '\n' ∉ l) :
    splitOnNl (l ++ '\n' :: r) = l :: splitOnNl r := by
  induction l with
  | nil => simp [splitOnNl]
  | cons c cs ih =>
    have hc : ¬(c = '\n') := fun hceq => h (hceq ▸ List.mem_cons_self c cs)
    have hcs : '\n' ∉ cs := fun hm => h (List.mem_cons_of_mem _ hm)
    simp [splitOnNl, hc, ih hcs]

lemma splitOnNl_mkChunk_append (ls : List (List Char)) (p : List Char)
    (h : ∀ l ∈ ls, '\n' ∉ l) (hp : '\n' ∉ p) :
    splitOnNl (mkChunk ls ++ p) = ls ++ [p] := by
  induction ls with
  | nil => simpa [mkChunk] using splitOnNl_noNl p hp
  | cons l ls ih =>
    have h1 : '\n' ∉ l := h l (List.mem_cons_self _ _)
    have h2 : ∀ x ∈ ls, '\n' ∉ x := fun x hx => h x (List.mem_cons_of_mem _ hx)
    simp only [mkChunk, List.cons_append, List.append_assoc]
    rw [splitOnNl_append _ _ h1, ih h2]

lemma extractLines_mkChunk_partial (ls : List (List Char)) (p : List Char)
    (h : ∀ l ∈ ls, '\n' ∉ l) (hp : '\n' ∉ p) :
    extractLines (mkChunk ls ++ p) = ls := by
  rw [extractLines, splitOnNl_mkChunk_append ls p h hp]
  simp

lemma extractLines_mkChunk (ls : List (List Char)) (h : ∀ l ∈ ls, '\n' ∉ l) :
    extractLines (mkChunk ls) = ls := by
  have h2 := extractLines_mkChunk_partial ls [] h (by simp)
  simpa using h2

/-- Claim C1, counterexample: the well-formed line `E4_Bvp 1.0 2.0`
(followed by its terminator) split into the two successive chunks
`E4_Bvp 1` and `.0 2.0\n` is a split of the concatenation of the
original lines, yet the frame-buffer stage does not yield the original
line: the first chunk's partial tail is dropped (there is no pending
buffer) and the stage yields the garbled line `.0 2.0` instead. -/
theorem chunking_transparent_cex :
    ("E4_Bvp 1").data ++ (".0 2.0\n").data = ("E4_Bvp 1.0 2.0\n").data ∧
    extractLines (("E4_Bvp 1").data) ++ extractLines ((".0 2.0\n").data) ≠
      [("E4_Bvp 1.0 2.0").data] := by
  decide

/-- Claim C1, amended: chunking is transparent only when every chunk
boundary falls on a line boundary — if each chunk is a concatenation
of whole newline-terminated lines, the frame-buffer stage yields
exactly the original lines in order; a trailing partial line is
dropped, not retained (`_read_data` never touches `self._buffer`), so
it is lost rather than completed by the next chunk. -/
theorem chunking_transparent_amended (lss : List (List (List Char)))
    (ls : List (List Char)) (p : List Char)
    (hlss : ∀ c ∈ lss, ∀ l ∈ c, '\n' ∉ l)
    (hls : ∀ l ∈ ls, '\n' ∉ l) (hp : '\n' ∉ p) :
    extractAll (lss.map mkChunk) = lss.flatten ∧
    extractLines (mkChunk ls ++ p) = ls := by
  refine ⟨?_, extractLines_mkChunk_partial ls p hls hp⟩
  induction lss with
  | nil => rfl
  | cons c cs ih =>
    have h1 : ∀ l ∈ c, '\n' ∉ l := hlss c (List.mem_cons_self _ _)
    have h2 : ∀ x ∈ cs, ∀ l ∈ x, '\n' ∉ l := fun x hx => hlss x (List.mem_cons_of_mem _ hx)
    simp only [List.map_cons, extractAll, List.flatten_cons,
      extractLines_mkChunk c h1, ih h2]

/-- Witness for the amended C1 theorem at a concrete two-chunk
stream plus a concrete dropped partial line. -/
theorem chunking_transparent_amended_witness :
    extractAll (([[("E4_Bvp 1.0 2.0").data],
      [("E4_Acc 1.0 1 2 3").data, ("E4_Gsr 2.0 0.5").data]]).map mkChunk) =
      ([[("E4_Bvp 1.0 2.0").data],
        [("E4_Acc 1.0 1 2 3").data, ("E4_Gsr 2.0 0.5").data]]).flatten ∧
    extractLines (mkChunk [("E4_Bvp 1.0 2.0").data] ++ ("E4_G").data) =
      [("E4_Bvp 1.0 2.0").data] :=
  chunking_transparent_amended _ _ _ (by decide) (by decide) (by decide)

lemma processBatch_cons_congr (x : List Char) {l1 l2 : List (List Char)}
    (h : processBatch l1 = processBatch l2) :
    processBatch (x :: l1) = processBatch (x :: l2) := by
  cases hx : processLine x with
  | err => simp [processBatch, hx]
  | skip => simpa [processBatch, hx] using h
  | sample o tg t v => simp [processBatch, hx, h]

lemma processBatch_result_some (ls : List (List Char))
    (h : ∀ x ∈ ls, processLine x ≠ .err) :
    (processBatch ls).result ≠ none := by
  induction ls with
  | nil => simp [processBatch]
  | cons x ls ih =>
    have hx := h x (List.mem_cons_self _ _)
    have hrest : ∀ y ∈ ls, processLine y ≠ .err :=
      fun y hy => h y (List.mem_cons_of_mem _ hy)
    cases hpx : processLine x with
    | err => exact absurd hpx hx
    | skip => simpa [processBatch, hpx] using ih hrest
    | sample o tg t v =>
      rcases hpb : processBatch ls with ⟨ps, r⟩
      cases r with
      | none =>
        exact absurd (by rw [hpb] : (processBatch ls).result = none) (ih hrest)
      | some rr =>
        rcases rr with ⟨tgs, ts, vs⟩
        simp [processBatch, hpx, hpb]

lemma processBatch_pushes_cons (x : List Char) (ls : List (List Char))
    (o : Outlet) (tg : List Char) (t : ℚ) (v : PyVal)
    (hx : processLine x = .sample o tg t v) :
    (processBatch (x :: ls)).pushes = ⟨o, v, t⟩ :: (processBatch ls).pushes := by
  rcases hpb : processBatch ls with ⟨ps, r⟩
  cases r with
  | none => simp [processBatch, hx, hpb]
  | some rr =>
    rcases rr with ⟨tgs, ts, vs⟩
    simp [processBatch, hx, hpb]

lemma processBatch_append_err (pre post : List (List Char)) (l : List Char)
    (hpre : ∀ x ∈ pre, processLine x ≠ .err) (hl : processLine l = .err) :
    processBatch (pre ++ l :: post) = ⟨(processBatch pre).pushes, none⟩ := by
  induction pre with
  | nil => simp [processBatch, hl]
  | cons x pre ih =>
    have hx := hpre x (List.mem_cons_self _ _)
    have hp2 : ∀ y ∈ pre, processLine y ≠ .err :=
      fun y hy => hpre y (List.mem_cons_of_mem _ hy)
    cases hpx : processLine x with
    | err => exact absurd hpx hx
    | skip =>
      rw [List.cons_append]
      have hL : processBatch (x :: (pre ++ l :: post)) = processBatch (pre ++ l :: post) := by
        simp [processBatch, hpx]
      have hR : (processBatch (x :: pre)).pushes = (processBatch pre).pushes := by
        simp [processBatch, hpx]
      rw [hL, hR, ih hp2]
    | sample o tg t v =>
      rw [List.cons_append, processBatch_pushes_cons x pre o tg t v hpx]
      have := ih hp2
      simp [processBatch, hpx, this]

/-- Claim C2, counterexample: in the batch carried by the chunk
`"\nE4_Bvp 1.0 2.0\n"`, the first line is empty (`split()[0]` raises
IndexError), and that single faulty line is not dropped by itself —
the whole batch is abandoned: the following well-formed `E4_Bvp` line
is neither pushed nor returned (the same line alone in a batch is
parsed and dispatched). -/
theorem line_error_isolated_cex :
    read_data (.chunk (("\nE4_Bvp 1.0 2.0\n").data)) = ⟨[], none, true, true⟩ ∧
    read_data (.chunk (("E4_Bvp 1.0 2.0\n").data)) =
      ⟨[⟨.bvp, .fv 2, 1⟩], some ([bvpTag], [1], [.fv 2]), false, false⟩ := by
  decide

/-- Claim C2, amended: a faulty line (empty, wrong payload arity, or a
non-numeric token) aborts the processing of the rest of its batch: the
lines before it are fully processed (their samples pushed to the LSL
outlets), but `_read_data` logs one error, sleeps one second and
returns `(None, None, None)`, so the faulty line and every later line
of the batch are dropped together; the fault is caught inside the read
call and the stream continues. -/
theorem line_error_isolated_amended (pre post : List (List Char)) (l : List Char)
    (hpre : ∀ x ∈ pre, processLine x ≠ .err) (hl : processLine l = .err)
    (hn : ∀ x ∈ pre ++ l :: post, '\n' ∉ x) :
    read_data (.chunk (mkChunk (pre ++ l :: post))) =
      ⟨(processBatch pre).pushes, none, true, true⟩ ∧
    (processBatch pre).result ≠ none := by
  refine ⟨?_, processBatch_result_some pre hpre⟩
  rw [show read_data (.chunk (mkChunk (pre ++ l :: post))) =
      (match processBatch (extractLines (mkChunk (pre ++ l :: post))) with
       | ⟨ps, some r⟩ => ⟨ps, some r, false, false⟩
       | ⟨ps, none⟩ => ⟨ps, none, true, true⟩ : ReadResult) from rfl]
  rw [extractLines_mkChunk _ hn, processBatch_append_err pre post l hpre hl]

/-- Witness for the amended C2 theorem: a well-formed `E4_Bvp` line,
then an empty line, then a well-formed `E4_Gsr` line. -/
theorem line_error_isolated_amended_witness :
    read_data (.chunk (mkChunk ([("E4_Bvp 1.0 2.0").data] ++
        ([] : List Char) :: [("E4_Gsr 1.0 0.5").data]))) =
      ⟨(processBatch [("E4_Bvp 1.0 2.0").data]).pushes, none, true, true⟩ ∧
    (processBatch [("E4_Bvp 1.0 2.0").data]).result ≠ none :=
  line_error_isolated_amended _ _ _ (by decide) (by decide) (by decide)

lemma run_closeCount (evs : List RecvEvent) : (run evs).closeCount = 1 := by
  induction evs with
  | nil => rfl
  | cons ev evs ih => simpa [run] using ih

lemma run_itersRun (evs : List RecvEvent) : (run evs).itersRun = evs.length := by
  induction evs with
  | nil => rfl
  | cons ev evs ih => simpa [run] using ih

/-- Claim C3, counterexample: a connection reset raised inside a read
iteration does not make the run loop exit within one iteration — the
bare `except` inside `_read_data` swallows it, and the very next
iteration still runs in full, dispatching a sample from the following
chunk (the cleanup runs only when the loop eventually stops). -/
theorem fatal_error_exits_cex :
    (run [.connReset, .chunk (("E4_Bvp 1.0 2.0\n").data)]).itersRun = 2 ∧
    (run [.connReset, .chunk (("E4_Bvp 1.0 2.0\n").data)]).appends =
      [⟨bvpDev, bvpStream, 1, .fv 2⟩] := by
  decide

/-- Claim C3, amended: a fatal socket error inside a read iteration is
caught inside `_read_data` itself (logged, one-second backoff, no data
returned); the run loop does not exit and keeps iterating until the
running flag is cleared or it is interrupted, and the socket-closing
cleanup step in `_run`'s `finally` block runs exactly once, when the
loop finally exits. -/
theorem fatal_error_exits_amended (evs : List RecvEvent) :
    (run evs).itersRun = evs.length ∧ (run evs).closeCount = 1 :=
  ⟨run_itersRun evs, run_closeCount evs⟩

/-- Claim C4, counterexample: a socket receive timeout during a read
iteration is caught by the same bare `except` as every other error —
it is logged via `_log_error` and a one-second `time.sleep` backoff is
applied, contradicting the claim that it is not logged as an error and
that no backoff is applied. -/
theorem timeout_no_data_cex :
    (read_data .timeout).errorLogged = true ∧
    (read_data .timeout).sleptOneSec = true := by
  decide

/-- Claim C4, amended: a socket receive timeout is handled exactly
like a connection reset: both are caught by `_read_data`'s bare
`except`, logged as an error with a one-second backoff, and return no
data; neither is fatal — the loop proceeds to the next iteration and
the cleanup still runs exactly once at the end. -/
theorem timeout_no_data_amended (evs : List RecvEvent) :
    read_data .timeout = read_data .connReset ∧
    (read_data .timeout).result = none ∧
    (run (.timeout :: evs)).itersRun = evs.length + 1 ∧
    (run (.timeout :: evs)).closeCount = 1 := by
  refine ⟨rfl, rfl, ?_, run_closeCount _⟩
  simpa [run] using run_itersRun evs

/-- Claim C5: when opening the TCP connection fails (timeout or
refused), `connect()` reports the failure as a boolean result rather
than an uncaught fault (the boolean wrapper is modelled from the spec,
see `connectResult`), no handshake command is sent, and no outlet is
created — `_connect` raises before its first `send`. -/
theorem connect_failure_reported :
    (connectResult false).1 = false ∧
    (connectResult false).2.sentCommands = [] ∧
    (connectResult false).2.outletsCreated = [] := by
  decide

/-- Claim C6, counterexample: calling `stop()` followed by `close()`
immediately after construction — before `connect()` — raises an
uncaught fault: `self._socket` is still `None` from `__init__`, so
`quit()`'s unconditional `self._socket.close()` raises an
`AttributeError` (modelled by `.error ()`) and the socket is not left
closed. -/
theorem shutdown_guarantee_cex :
    quit (stop initState) = .error () :=
  rfl

/-- Claim C6, amended: calling `stop()` followed by `close()` at any
point after `_connect` has assigned the socket (including right after
`connect()`, before the run loop starts) leaves the socket closed and
raises no uncaught fault; only before `connect()`, while the socket
field is still `None`, does `close()` raise an uncaught
`AttributeError`. -/
theorem shutdown_guarantee_amended (st : AdapterState) (s : SockState)
    (h : st.sock = some s) :
    quit (stop st) = .ok ⟨some .closed, false⟩ := by
  cases st with
  | mk sk r =>
    subst h
    rfl

/-- Witness for the amended C6 theorem: shutdown from a connected
adapter. -/
theorem shutdown_guarantee_amended_witness :
    quit (stop ⟨some .connected, true⟩) = .ok ⟨some .closed, false⟩ :=
  shutdown_guarantee_amended _ .connected rfl

lemma charToDot_charToComma (c : Char) : charToDot (charToComma c) = charToDot c := by
  by_cases h : c = '.'
  · subst h
    rfl
  · simp [charToComma, h]

lemma commaToDot_map_charToComma (s : List Char) :
    commaToDot (s.map charToComma) = commaToDot s := by
  induction s with
  | nil => rfl
  | cons c cs ih =>
    simp only [commaToDot, List.map_cons] at ih ⊢
    rw [charToDot_charToComma, ih]

lemma isWs_charToComma (c : Char) : isWs (charToComma c) = isWs c := by
  by_cases h : c = '.'
  · subst h
    rfl
  · simp [charToComma, h]

lemma splitWsAcc_map (s : List Char) : ∀ acc : List Char,
    splitWsAcc (s.map charToComma) (acc.map charToComma) =
      (splitWsAcc s acc).map (List.map charToComma) := by
  induction s with
  | nil =>
    intro acc
    cases acc with
    | nil => rfl
    | cons a as => simp [splitWsAcc, List.map_reverse]
  | cons c cs ih =>
    intro acc
    cases hw : isWs c with
    | true =>
      have hw2 : isWs (charToComma c) = true := by rw [isWs_charToComma, hw]
      cases acc with
      | nil => simpa [splitWsAcc, hw, hw2] using ih []
      | cons a as =>
        simp only [List.map_cons, splitWsAcc, hw, hw2, if_true]
        simp [List.map_reverse]
        simpa using ih []
    | false =>
      have hw2 : isWs (charToComma c) = false := by rw [isWs_charToComma, hw]
      simpa [splitWsAcc, hw, hw2] using ih (c :: acc)

lemma pySplit_toComma (s : List Char) :
    pySplit (toComma s) = (pySplit s).map (List.map charToComma) := by
  simpa [pySplit, toComma] using splitWsAcc_map s []

lemma numF_map (ts : List (List Char)) (k : Nat) :
    numF (ts.map (List.map charToComma)) k = numF ts k := by
  cases h : ts[k]? with
  | none => simp [numF, List.getElem?_map, h]
  | some t => simp [numF, List.getElem?_map, h, commaToDot_map_charToComma t]

lemma numI_map (ts : List (List Char)) (k : Nat) :
    numI (ts.map (List.map charToComma)) k = numI ts k := by
  cases h : ts[k]? with
  | none => simp [numI, List.getElem?_map, h]
  | some t => simp [numI, List.getElem?_map, h, commaToDot_map_charToComma t]

lemma parseAcc_map (ts : List (List Char)) :
    parseAcc (ts.map (List.map charToComma)) = parseAcc ts := by
  simp only [parseAcc, numF_map, numI_map]

lemma parseF1_map (o : Outlet) (tg : List Char) (ts : List (List Char)) :
    parseF1 o tg (ts.map (List.map charToComma)) = parseF1 o tg ts := by
  simp only [parseF1, numF_map]

lemma charToComma_eq_iff (a b : Char) (h1 : b ≠ '.') (h2 : b ≠ ',') :
    charToComma a = b ↔ a = b := by
  constructor
  · intro he
    by_cases ha : a = '.'
    · subst ha
      exact absurd ((by simp [charToComma] at he; exact he.symm) : b = ',') h2
    · simpa [charToComma, ha] using he
  · intro he
    subst he
    simp [charToComma, h1]

lemma map_charToComma_eq_iff (t d : List Char)
    (hd : ∀ c ∈ d, c ≠ '.' ∧ c ≠ ',') :
    t.map charToComma = d ↔ t = d := by
  induction t generalizing d with
  | nil => cases d <;> simp
  | cons a t ih =>
    cases d with
    | nil => simp
    | cons b d =>
      have hb := hd b (List.mem_cons_self _ _)
      have hd2 : ∀ c ∈ d, c ≠ '.' ∧ c ≠ ',' :=
        fun c hc => hd c (List.mem_cons_of_mem _ hc)
      simp [charToComma_eq_iff a b hb.1 hb.2, ih d hd2]

/-- Claim C7: decimal-separator normalization — for every line,
parsing the line written with comma fractional separators (every dot
replaced by a comma) yields exactly the same result as the same line
written with dot separators, sample payload included; in particular
the spec's instance `E4_Bvp 12,500 3,14` versus
`E4_Bvp 12.500 3.14`. -/
theorem decimal_normalization :
    (∀ line : List Char, processLine (toComma line) = processLine line) ∧
    processLine (("E4_Bvp 12,500 3,14").data) =
      processLine (("E4_Bvp 12.500 3.14").data) := by
  have hmain : ∀ line : List Char, processLine (toComma line) = processLine line := by
    intro line
    have hsp : pySplit (toComma line) = (pySplit line).map (List.map charToComma) :=
      pySplit_toComma line
    cases h0 : pySplit line with
    | nil =>
      rw [h0] at hsp
      simp [processLine, hsp, h0]
    | cons t0 rest =>
      rw [h0] at hsp
      simp only [List.map_cons] at hsp
      simp only [processLine, hsp, h0]
      have i1 := map_charToComma_eq_iff t0 accTag (by decide)
      have i2 := map_charToComma_eq_iff t0 bvpTag (by decide)
      have i3 := map_charToComma_eq_iff t0 gsrTag (by decide)
      have i4 := map_charToComma_eq_iff t0 tmpTag (by decide)
      by_cases e1 : t0 = accTag
      · rw [if_pos (i1.mpr e1), if_pos e1, ← List.map_cons, parseAcc_map]
      · rw [if_neg (fun hc => e1 (i1.mp hc)), if_neg e1]
        by_cases e2 : t0 = bvpTag
        · rw [if_pos (i2.mpr e2), if_pos e2, ← List.map_cons, parseF1_map]
        · rw [if_neg (fun hc => e2 (i2.mp hc)), if_neg e2]
          by_cases e3 : t0 = gsrTag
          · rw [if_pos (i3.mpr e3), if_pos e3, ← List.map_cons, parseF1_map]
          · rw [if_neg (fun hc => e3 (i3.mp hc)), if_neg e3]
            by_cases e4 : t0 = tmpTag
            · rw [if_pos (i4.mpr e4), if_pos e4, ← List.map_cons, parseF1_map]
            · rw [if_neg (fun hc => e4 (i4.mp hc)), if_neg e4]
  refine ⟨hmain, ?_⟩
  rw [(by decide :
      ("E4_Bvp 12,500 3,14").data = toComma (("E4_Bvp 12.500 3.14").data))]
  exact hmain (("E4_Bvp 12.500 3.14").data)

/-- Claim C8: a line whose first token is outside the fixed vocabulary
matches none of the four tag branches — it is skipped with no
exception and no push, and removing it from a batch leaves the
processing of every other line (pushes, returned lists, and success
or failure of the batch) unchanged. -/
theorem unknown_tag_nonfatal (pre post : List (List Char)) (u t0 : List Char)
    (rest : List (List Char)) (hsplit : pySplit u = t0 :: rest)
    (h1 : t0 ≠ accTag) (h2 : t0 ≠ bvpTag) (h3 : t0 ≠ gsrTag) (h4 : t0 ≠ tmpTag) :
    processLine u = .skip ∧
    processBatch (pre ++ u :: post) = processBatch (pre ++ post) := by
  have hskip : processLine u = .skip := by
    simp [processLine, hsplit, h1, h2, h3, h4]
  refine ⟨hskip, ?_⟩
  induction pre with
  | nil => simp [processBatch, hskip]
  | cons x pre ih =>
    rw [List.cons_append, List.cons_append]
    exact processBatch_cons_congr x ih

/-- Witness for C8 at the spec's instance `E4_Unknown 1.0 5`, placed
between a well-formed `E4_Acc` line and a well-formed `E4_Bvp` line. -/
theorem unknown_tag_nonfatal_witness :
    processLine (("E4_Unknown 1.0 5").data) = .skip ∧
    processBatch ([("E4_Acc 1.0 1 2 3").data] ++
        ("E4_Unknown 1.0 5").data :: [("E4_Bvp 1.0 2.0").data]) =
      processBatch ([("E4_Acc 1.0 1 2 3").data] ++ [("E4_Bvp 1.0 2.0").data]) :=
  unknown_tag_nonfatal [("E4_Acc 1.0 1 2 3").data] [("E4_Bvp 1.0 2.0").data]
    (("E4_Unknown 1.0 5").data) (("E4_Unknown").data)
    [("1.0").data, ("5").data]
    (by decide) (by decide) (by decide) (by decide) (by decide)

lemma dispatchOne_eq (tg : List Char) (t : ℚ) (v : PyVal) :
    dispatchOne tg t v =
      (match specSinkOf tg with
       | some ds => [⟨ds.1, ds.2, t, v⟩]
       | none => []) := by
  by_cases e1 : tg = accTag
  · subst e1
    rfl
  · by_cases e2 : tg = bvpTag
    · subst e2
      rfl
    · by_cases e3 : tg = gsrTag
      · subst e3
        rfl
      · by_cases e4 : tg = tmpTag
        · subst e4
          rfl
        · simp [dispatchOne, specSinkOf, e1, e2, e3, e4]

/-- Claim C9: the dispatch loop of `_run` equals the spec's demux
table for every batch — each sample is appended to exactly the one
sink `specSinkOf` registers for its modality tag and to no other sink;
the second conjunct runs the full pipeline on one chunk carrying all
four modalities and checks each sample lands at its own sink. -/
theorem demux_routing :
    (∀ (tgs : List (List Char)) (ts : List ℚ) (vs : List PyVal),
      dispatchBatch tgs ts vs = specDispatch tgs ts vs) ∧
    (run [.chunk (("E4_Acc 1.0 1 2 3\nE4_Bvp 1.5 2.5\nE4_Gsr 2.0 0.75\nE4_Temperature 2.5 30.25\n").data)]).appends =
      [⟨accDev, accStream, 1, .iv 1 2 3⟩,
       ⟨bvpDev, bvpStream, mkRat 3 2, .fv (mkRat 5 2)⟩,
       ⟨gsrDev, gsrStream, 2, .fv (mkRat 3 4)⟩,
       ⟨tmpDev, tmpStream, mkRat 5 2, .fv (mkRat 121 4)⟩] := by
  constructor
  · intro tgs
    induction tgs with
    | nil => intro ts vs; rfl
    | cons tg tgs ih =>
      intro ts vs
      cases ts with
      | nil => rfl
      | cons t ts =>
        cases vs with
        | nil => rfl
        | cons v vs => simp [dispatchBatch, specDispatch, dispatchOne_eq, ih]
  · decide

/-- Claim C10: if a line of a batch raises partway through
`_read_data`, every recognized sample from the earlier lines of that
batch has already been pushed to its LSL outlet (the pushes equal
exactly those of the error-free prefix, whose processing succeeds),
yet the read returns `(None, None, None)`, so the run loop appends
nothing at all from the batch to the per-modality channels — the two
consumer paths diverge by the batch prefix. -/
theorem lsl_channel_divergence (pre post : List (List Char)) (l : List Char)
    (hpre : ∀ x ∈ pre, processLine x ≠ .err) (hl : processLine l = .err)
    (hn : ∀ x ∈ pre ++ l :: post, '\n' ∉ x) :
    (run [.chunk (mkChunk (pre ++ l :: post))]).appends = [] ∧
    (run [.chunk (mkChunk (pre ++ l :: post))]).pushes = (processBatch pre).pushes ∧
    (processBatch pre).result ≠ none := by
  have hrd : read_data (.chunk (mkChunk (pre ++ l :: post))) =
      ⟨(processBatch pre).pushes, none, true, true⟩ := by
    rw [show read_data (.chunk (mkChunk (pre ++ l :: post))) =
        (match processBatch (extractLines (mkChunk (pre ++ l :: post))) with
         | ⟨ps, some r⟩ => (⟨ps, some r, false, false⟩ : ReadResult)
         | ⟨ps, none⟩ => ⟨ps, none, true, true⟩) from rfl]
    rw [extractLines_mkChunk _ hn, processBatch_append_err pre post l hpre hl]
  refine ⟨?_, ?_, processBatch_result_some pre hpre⟩
  · simp [run, hrd]
  · simp [run, hrd]

/-- Witness for C10: an `E4_Acc` line is pushed to LSL, then an
`E4_Bvp` line with a missing value raises, so nothing from the batch
reaches the channels. -/
theorem lsl_channel_divergence_witness :
    (run [.chunk (mkChunk ([("E4_Acc 1.0 1 2 3").data] ++
        ("E4_Bvp 1.0").data :: [("E4_Temperature 2.0 30.0").data]))]).appends = [] ∧
    (run [.chunk (mkChunk ([("E4_Acc 1.0 1 2 3").data] ++
        ("E4_Bvp 1.0").data :: [("E4_Temperature 2.0 30.0").data]))]).pushes =
      (processBatch [("E4_Acc 1.0 1 2 3").data]).pushes ∧
    (processBatch [("E4_Acc 1.0 1 2 3").data]).result ≠ none :=
  lsl_channel_divergence _ _ _ (by decide) (by decide) (by decide)

end E4
